import Mathlib

/-!
Verification of the stusb4500 driver core: the PDO bit-packing codec
(src/pdo.rs) and the NVM programming protocol (src/nvm.rs).

Machine integers are modelled as `Nat` with explicit masking where the
source relies on fixed-width (`u32`) semantics.
-/

namespace Stusb4500

/-! ### PDO codec, from src/pdo.rs -/

/-- `FastSwapSupport` enum from src/pdo.rs (`_1A5_5V` and `_3A0_5V` are
renamed, Lean identifiers cannot start with a digit). -/
inductive FastSwapSupport
  | NotSupported
  | DefaultUsb
  | OneA5At5V
  | ThreeA0At5V
deriving DecidableEq

/-- `Into<u32> for FastSwapSupport` from src/pdo.rs. -/
def FastSwapSupport.toU32 : FastSwapSupport → Nat
  | .NotSupported => 0
  | .DefaultUsb => 1
  | .OneA5At5V => 2
  | .ThreeA0At5V => 3

/-- `From<u32> for FastSwapSupport` from src/pdo.rs: matches on `value & 0x3`. -/
def FastSwapSupport.fromU32 (value : Nat) : FastSwapSupport :=
  match value &&& 0x3 with
  | 0 => .NotSupported
  | 1 => .DefaultUsb
  | 2 => .OneA5At5V
  | _ => .ThreeA0At5V

/-- Semantics of the `bitfield!` macro's generated setter for a multi-bit
field `msb, lsb` on a `u32`-backed struct: clear the field's bits (the
complement is taken inside 32 bits, as `!` on `u32`), then OR in the new
value truncated to the field width. -/
def setBits (word msb lsb value : Nat) : Nat :=
  let mask := 2 ^ (msb - lsb + 1) - 1
  (word &&& ((2 ^ 32 - 1) ^^^ (mask <<< lsb))) ||| ((value &&& mask) <<< lsb)

/-- Semantics of the `bitfield!` macro's generated getter for a field
`msb, lsb`: shift down and mask to the field width. -/
def getBits (word msb lsb : Nat) : Nat :=
  (word >>> lsb) &&& (2 ^ (msb - lsb + 1) - 1)

/-- Single-bit `bitfield!` setter (boolean fields). -/
def setBit (word i : Nat) (b : Bool) : Nat :=
  setBits word i i (if b then 1 else 0)

/-- Single-bit `bitfield!` getter (boolean fields). -/
def getBit (word i : Nat) : Bool :=
  getBits word i i = 1

/-- `PDO_SNK_FIXED` from src/pdo.rs. -/
def PDO_SNK_FIXED : Nat := 0x0 <<< 30

/-- `PDO_SNK_VARIABLE` from src/pdo.rs. -/
def PDO_SNK_VARIABLE : Nat := 0x1 <<< 30

/-- `PDO_SNK_BATTERY` from src/pdo.rs. -/
def PDO_SNK_BATTERY : Nat := 0x2 <<< 30

/-- `PDO_SNK_AUGMENTED` from src/pdo.rs. -/
def PDO_SNK_AUGMENTED : Nat := 0x3 <<< 30

/-- `FixedPdo` bitfield struct from src/pdo.rs: a raw `u32` word. -/
structure FixedPdo where
  val : Nat
deriving DecidableEq

/-- `VariablePdo` bitfield struct from src/pdo.rs. -/
structure VariablePdo where
  val : Nat
deriving DecidableEq

/-- `BatteryPdo` bitfield struct from src/pdo.rs. -/
structure BatteryPdo where
  val : Nat
deriving DecidableEq

/-- `AugmentedPdo` bitfield struct from src/pdo.rs. -/
structure AugmentedPdo where
  val : Nat
deriving DecidableEq

/-- Field `fixed, _: 31, 30` of `FixedPdo`. -/
def FixedPdo.fixed (p : FixedPdo) : Nat := getBits p.val 31 30

/-- Field getter `dual_role_power: 29` of `FixedPdo`. -/
def FixedPdo.dual_role_power (p : FixedPdo) : Bool := getBit p.val 29

/-- Field setter `set_dual_role_power: 29` of `FixedPdo`. -/
def FixedPdo.set_dual_role_power (p : FixedPdo) (b : Bool) : FixedPdo :=
  ⟨setBit p.val 29 b⟩

/-- Field getter `higher_capability: 28` of `FixedPdo`. -/
def FixedPdo.higher_capability (p : FixedPdo) : Bool := getBit p.val 28

/-- Field setter `set_higher_capability: 28` of `FixedPdo`. -/
def FixedPdo.set_higher_capability (p : FixedPdo) (b : Bool) : FixedPdo :=
  ⟨setBit p.val 28 b⟩

/-- Field getter `unconstrained_power: 27` of `FixedPdo`. -/
def FixedPdo.unconstrained_power (p : FixedPdo) : Bool := getBit p.val 27

/-- Field setter `set_unconstrained_power: 27` of `FixedPdo`. -/
def FixedPdo.set_unconstrained_power (p : FixedPdo) (b : Bool) : FixedPdo :=
  ⟨setBit p.val 27 b⟩

/-- Field getter `usb_communications_capable: 26` of `FixedPdo`. -/
def FixedPdo.usb_communications_capable (p : FixedPdo) : Bool := getBit p.val 26

/-- Field setter `set_usb_communications_capable: 26` of `FixedPdo`. -/
def FixedPdo.set_usb_communications_capable (p : FixedPdo) (b : Bool) : FixedPdo :=
  ⟨setBit p.val 26 b⟩

/-- Field getter `dual_role_data: 25` of `FixedPdo`. -/
def FixedPdo.dual_role_data (p : FixedPdo) : Bool := getBit p.val 25

/-- Field setter `set_dual_role_data: 25` of `FixedPdo`. -/
def FixedPdo.set_dual_role_data (p : FixedPdo) (b : Bool) : FixedPdo :=
  ⟨setBit p.val 25 b⟩

/-- Field getter `fast_role_swap: 24, 23` of `FixedPdo` (converted through
`FastSwapSupport::from<u32>`). -/
def FixedPdo.fast_role_swap (p : FixedPdo) : FastSwapSupport :=
  FastSwapSupport.fromU32 (getBits p.val 24 23)

/-- Field getter `voltage: 19, 10` of `FixedPdo`. -/
def FixedPdo.voltage (p : FixedPdo) : Nat := getBits p.val 19 10

/-- Field setter `set_voltage: 19, 10` of `FixedPdo`. -/
def FixedPdo.set_voltage (p : FixedPdo) (v : Nat) : FixedPdo :=
  ⟨setBits p.val 19 10 v⟩

/-- Field getter `current: 9, 0` of `FixedPdo`. -/
def FixedPdo.current (p : FixedPdo) : Nat := getBits p.val 9 0

/-- Field setter `set_current: 9, 0` of `FixedPdo`. -/
def FixedPdo.set_current (p : FixedPdo) (c : Nat) : FixedPdo :=
  ⟨setBits p.val 9 0 c⟩

/-- `Default for FixedPdo` from src/pdo.rs: the raw word `PDO_SNK_FIXED`. -/
def FixedPdo.default : FixedPdo := ⟨PDO_SNK_FIXED⟩

/-- `FixedPdo::new(voltage, current)` from src/pdo.rs: start from the
default word, set the voltage field, set the current field. The `u16`
arguments are modelled as naturals below `2 ^ 16` (the `as u32` cast is
then the identity). -/
def FixedPdo.new (voltage current : Nat) : FixedPdo :=
  (FixedPdo.default.set_voltage voltage).set_current current

/-- The `Pdo` enum from src/pdo.rs. -/
inductive Pdo
  | Fixed (p : FixedPdo)
  | Variable (p : VariablePdo)
  | Battery (p : BatteryPdo)
  | Augmented (p : AugmentedPdo)
deriving DecidableEq

/-- `Pdo::new_fixed` from src/pdo.rs. -/
def Pdo.new_fixed (voltage current : Nat) : Pdo :=
  .Fixed (FixedPdo.new voltage current)

/-- `Pdo::dual_role_power` from src/pdo.rs: sets the flag when the variant
is `Fixed`, otherwise leaves the value untouched (the `if let` falls
through). -/
def Pdo.dual_role_power : Pdo → Bool → Pdo
  | .Fixed x, b => .Fixed (x.set_dual_role_power b)
  | p, _ => p

/-- `Pdo::dual_role_data` from src/pdo.rs. -/
def Pdo.dual_role_data : Pdo → Bool → Pdo
  | .Fixed x, b => .Fixed (x.set_dual_role_data b)
  | p, _ => p

/-- `Pdo::usb_communications_capable` from src/pdo.rs. -/
def Pdo.usb_communications_capable : Pdo → Bool → Pdo
  | .Fixed x, b => .Fixed (x.set_usb_communications_capable b)
  | p, _ => p

/-- `Pdo::higher_capability` from src/pdo.rs. -/
def Pdo.higher_capability : Pdo → Bool → Pdo
  | .Fixed x, b => .Fixed (x.set_higher_capability b)
  | p, _ => p

/-- `Pdo::unconstrained_power` from src/pdo.rs. -/
def Pdo.unconstrained_power : Pdo → Bool → Pdo
  | .Fixed x, b => .Fixed (x.set_unconstrained_power b)
  | p, _ => p

/-- `Pdo::bits` from src/pdo.rs: the raw backing word of the variant. -/
def Pdo.bits : Pdo → Nat
  | .Fixed a => a.val
  | .Variable a => a.val
  | .Battery a => a.val
  | .Augmented a => a.val

/-- `Pdo::from_bits` from src/pdo.rs: match on `bits & 0xC000_0000`
against the four tag constants, with a defensive fall-through to `None`. -/
def Pdo.from_bits (bits : Nat) : Option Pdo :=
  let tag := bits &&& 0xC0000000
  if tag = PDO_SNK_FIXED then some (.Fixed ⟨bits⟩)
  else if tag = PDO_SNK_VARIABLE then some (.Variable ⟨bits⟩)
  else if tag = PDO_SNK_BATTERY then some (.Battery ⟨bits⟩)
  else if tag = PDO_SNK_AUGMENTED then some (.Augmented ⟨bits⟩)
  else none

/-- Variant index of a `Pdo`, in the order fixed by the tag bits
(0 = Fixed, 1 = Variable, 2 = Battery, 3 = Augmented). -/
def Pdo.tagIdx : Pdo → Nat
  | .Fixed _ => 0
  | .Variable _ => 1
  | .Battery _ => 2
  | .Augmented _ => 3

/-! ### Bit-level helper lemmas -/

lemma testBit_of_lt_32 {w i : Nat} (hw : w < 2 ^ 32) (hi : 32 ≤ i) :
    w.testBit i = false :=
  Nat.testBit_lt_two_pow (lt_of_lt_of_le hw (Nat.pow_le_pow_right (by norm_num) hi))

/-- Masking with `0xC0000000` extracts bits 31:30: for a `u32` word it
equals the top two bits shifted back into place. -/
lemma and_top_two (w : Nat) (hw : w < 2 ^ 32) :
    w &&& 0xC0000000 = (w >>> 30) <<< 30 := by
  have h3 : (0xC0000000 : Nat) = (2 ^ 2 - 1) <<< 30 := by
    norm_num [Nat.shiftLeft_eq]
  apply Nat.eq_of_testBit_eq
  intro i
  rw [h3]
  simp only [Nat.testBit_and, Nat.testBit_shiftLeft, Nat.testBit_shiftRight,
    Nat.testBit_two_pow_sub_one]
  by_cases h30 : 30 ≤ i
  · by_cases h32 : i < 32
    · have : 30 + (i - 30) = i := by omega
      simp [h30, this, show i - 30 < 2 by omega]
    · have hge : 32 ≤ i := by omega
      simp [testBit_of_lt_32 hw hge, testBit_of_lt_32 hw (show 32 ≤ 30 + (i - 30) by omega)]
  · simp [h30]

lemma shiftRight_30_lt (w : Nat) (hw : w < 2 ^ 32) : w >>> 30 < 4 := by
  rw [Nat.shiftRight_eq_div_pow]
  omega

/-- C1: for every 32-bit word `w`, `Pdo::from_bits(w)` returns `Some` of a
variant selected by bits 31:30 (0 = Fixed, 1 = Variable, 2 = Battery,
3 = Augmented) wrapping the raw word unchanged, so `bits` round-trips. -/
theorem from_bits_total_roundtrip (w : Nat) (hw : w < 2 ^ 32) :
    ∃ p : Pdo, Pdo.from_bits w = some p ∧ p.bits = w ∧ p.tagIdx = w >>> 30 := by
  have hlt := shiftRight_30_lt w hw
  have hand := and_top_two w hw
  have hcase : w >>> 30 = 0 ∨ w >>> 30 = 1 ∨ w >>> 30 = 2 ∨ w >>> 30 = 3 := by omega
  rcases hcase with h | h | h | h
  · exact ⟨Pdo.Fixed ⟨w⟩,
      by simp only [Pdo.from_bits, hand, h]
         norm_num [Nat.shiftLeft_eq, PDO_SNK_FIXED, PDO_SNK_VARIABLE,
           PDO_SNK_BATTERY, PDO_SNK_AUGMENTED],
      rfl, by simp [Pdo.tagIdx, h]⟩
  · exact ⟨Pdo.Variable ⟨w⟩,
      by simp only [Pdo.from_bits, hand, h]
         norm_num [Nat.shiftLeft_eq, PDO_SNK_FIXED, PDO_SNK_VARIABLE,
           PDO_SNK_BATTERY, PDO_SNK_AUGMENTED],
      rfl, by simp [Pdo.tagIdx, h]⟩
  · exact ⟨Pdo.Battery ⟨w⟩,
      by simp only [Pdo.from_bits, hand, h]
         norm_num [Nat.shiftLeft_eq, PDO_SNK_FIXED, PDO_SNK_VARIABLE,
           PDO_SNK_BATTERY, PDO_SNK_AUGMENTED],
      rfl, by simp [Pdo.tagIdx, h]⟩
  · exact ⟨Pdo.Augmented ⟨w⟩,
      by simp only [Pdo.from_bits, hand, h]
         norm_num [Nat.shiftLeft_eq, PDO_SNK_FIXED, PDO_SNK_VARIABLE,
           PDO_SNK_BATTERY, PDO_SNK_AUGMENTED],
      rfl, by simp [Pdo.tagIdx, h]⟩

/-- Witness for C1 at the concrete word `0x8000_0005` (tag 2, Battery). -/
theorem from_bits_total_roundtrip_witness :
    ∃ p : Pdo, Pdo.from_bits 0x80000005 = some p ∧ p.bits = 0x80000005 ∧
      p.tagIdx = 0x80000005 >>> 30 :=
  from_bits_total_roundtrip 0x80000005 (by norm_num)

/-- C8: the five field mutators leave a `Variable`, `Battery` or
`Augmented` PDO's backing word bit-for-bit unchanged (the `if let Fixed`
in each mutator falls through), and they are total, so nothing is
signalled. -/
theorem nonfixed_mutators_noop (w : Nat) (b : Bool) :
    (((Pdo.Variable ⟨w⟩).dual_role_power b).bits = w ∧
      ((Pdo.Variable ⟨w⟩).dual_role_data b).bits = w ∧
      ((Pdo.Variable ⟨w⟩).usb_communications_capable b).bits = w ∧
      ((Pdo.Variable ⟨w⟩).higher_capability b).bits = w ∧
      ((Pdo.Variable ⟨w⟩).unconstrained_power b).bits = w) ∧
    (((Pdo.Battery ⟨w⟩).dual_role_power b).bits = w ∧
      ((Pdo.Battery ⟨w⟩).dual_role_data b).bits = w ∧
      ((Pdo.Battery ⟨w⟩).usb_communications_capable b).bits = w ∧
      ((Pdo.Battery ⟨w⟩).higher_capability b).bits = w ∧
      ((Pdo.Battery ⟨w⟩).unconstrained_power b).bits = w) ∧
    (((Pdo.Augmented ⟨w⟩).dual_role_power b).bits = w ∧
      ((Pdo.Augmented ⟨w⟩).dual_role_data b).bits = w ∧
      ((Pdo.Augmented ⟨w⟩).usb_communications_capable b).bits = w ∧
      ((Pdo.Augmented ⟨w⟩).higher_capability b).bits = w ∧
      ((Pdo.Augmented ⟨w⟩).unconstrained_power b).bits = w) :=
  ⟨⟨rfl, rfl, rfl, rfl, rfl⟩, ⟨rfl, rfl, rfl, rfl, rfl⟩, ⟨rfl, rfl, rfl, rfl, rfl⟩⟩

lemma or_shiftLeft_eq_add (a b n : Nat) (hb : b < 2 ^ n) :
    (a <<< n) ||| b = a * 2 ^ n + b := by
  rw [Nat.shiftLeft_eq, Nat.mul_comm a (2 ^ n), ← Nat.mul_add_lt_is_or hb]

lemma shifted_and_himask (v : Nat) :
    ((v % 2 ^ 10) <<< 10) &&& ((2 ^ 32 - 1) ^^^ (2 ^ 10 - 1)) = (v % 2 ^ 10) <<< 10 := by
  apply Nat.eq_of_testBit_eq
  intro j
  simp only [Nat.testBit_and, Nat.testBit_xor, Nat.testBit_shiftLeft,
    Nat.testBit_two_pow_sub_one, Nat.testBit_mod_two_pow, ge_iff_le]
  by_cases h10 : 10 ≤ j
  · by_cases h20 : j - 10 < 10
    · simp [h10, h20, show j < 32 by omega, show ¬j < 10 by omega]
    · simp [h20]
  · simp [h10]

/-- Arithmetic form of the word built by `FixedPdo::new`: the truncated
voltage in bits 19:10, the truncated current in bits 9:0. -/
lemma new_fixed_val (v c : Nat) :
    (FixedPdo.new v c).val = (v % 2 ^ 10) * 2 ^ 10 + c % 2 ^ 10 := by
  show setBits (setBits PDO_SNK_FIXED 19 10 v) 9 0 c = _
  simp only [PDO_SNK_FIXED, setBits, Nat.zero_shiftLeft, Nat.zero_and, Nat.zero_or,
    Nat.shiftLeft_zero, show (19 : Nat) - 10 + 1 = 10 from rfl,
    show (9 : Nat) - 0 + 1 = 10 from rfl, Nat.and_pow_two_sub_one_eq_mod]
  rw [shifted_and_himask, or_shiftLeft_eq_add]
  exact Nat.mod_lt _ (by norm_num)

/-- C7: `Pdo::new_fixed(v, c)` builds a Fixed PDO whose word has bits
19:10 equal to `v & 0x3FF`, bits 9:0 equal to `c & 0x3FF`, tag bits 31:30
zero, all five boolean flags cleared, and fast-role-swap `NotSupported`;
inputs are truncated to 10 bits with no validation. -/
theorem new_fixed_spec (v c : Nat) (hv : v < 2 ^ 16) (hc : c < 2 ^ 16) :
    Pdo.new_fixed v c = Pdo.Fixed (FixedPdo.new v c) ∧
    getBits (Pdo.new_fixed v c).bits 19 10 = (v &&& 0x3FF) ∧
    getBits (Pdo.new_fixed v c).bits 9 0 = (c &&& 0x3FF) ∧
    getBits (Pdo.new_fixed v c).bits 31 30 = 0 ∧
    (FixedPdo.new v c).dual_role_power = false ∧
    (FixedPdo.new v c).dual_role_data = false ∧
    (FixedPdo.new v c).usb_communications_capable = false ∧
    (FixedPdo.new v c).higher_capability = false ∧
    (FixedPdo.new v c).unconstrained_power = false ∧
    (FixedPdo.new v c).fast_role_swap = FastSwapSupport.NotSupported := by
  have hw := new_fixed_val v c
  have hbits : (Pdo.new_fixed v c).bits = (FixedPdo.new v c).val := rfl
  refine ⟨rfl, ?_, ?_, ?_, ?_, ?_, ?_, ?_, ?_, ?_⟩
  · rw [hbits, show (0x3FF : Nat) = 2 ^ 10 - 1 by norm_num, Nat.and_pow_two_sub_one_eq_mod]
    simp only [getBits, Nat.shiftRight_eq_div_pow, Nat.and_pow_two_sub_one_eq_mod, hw]
    norm_num
    omega
  · rw [hbits, show (0x3FF : Nat) = 2 ^ 10 - 1 by norm_num, Nat.and_pow_two_sub_one_eq_mod]
    simp only [getBits, Nat.shiftRight_eq_div_pow, Nat.and_pow_two_sub_one_eq_mod, hw]
    norm_num
    omega
  · rw [hbits]
    simp only [getBits, Nat.shiftRight_eq_div_pow, Nat.and_pow_two_sub_one_eq_mod, hw]
    norm_num
    omega
  · simp only [FixedPdo.dual_role_power, getBit, getBits, Nat.shiftRight_eq_div_pow,
      Nat.and_pow_two_sub_one_eq_mod, hw, decide_eq_false_iff_not]
    norm_num
    omega
  · simp only [FixedPdo.dual_role_data, getBit, getBits, Nat.shiftRight_eq_div_pow,
      Nat.and_pow_two_sub_one_eq_mod, hw, decide_eq_false_iff_not]
    norm_num
    omega
  · simp only [FixedPdo.usb_communications_capable, getBit, getBits, Nat.shiftRight_eq_div_pow,
      Nat.and_pow_two_sub_one_eq_mod, hw, decide_eq_false_iff_not]
    norm_num
    omega
  · simp only [FixedPdo.higher_capability, getBit, getBits, Nat.shiftRight_eq_div_pow,
      Nat.and_pow_two_sub_one_eq_mod, hw, decide_eq_false_iff_not]
    norm_num
    omega
  · simp only [FixedPdo.unconstrained_power, getBit, getBits, Nat.shiftRight_eq_div_pow,
      Nat.and_pow_two_sub_one_eq_mod, hw, decide_eq_false_iff_not]
    norm_num
    omega
  · have h0 : getBits (FixedPdo.new v c).val 24 23 = 0 := by
      simp only [getBits, Nat.shiftRight_eq_div_pow, Nat.and_pow_two_sub_one_eq_mod, hw]
      norm_num
      omega
    simp [FixedPdo.fast_role_swap, h0, FastSwapSupport.fromU32]

/-- Witness for C7 at voltage 5000, current 1500. -/
theorem new_fixed_spec_witness :
    Pdo.new_fixed 5000 1500 = Pdo.Fixed (FixedPdo.new 5000 1500) ∧
    getBits (Pdo.new_fixed 5000 1500).bits 19 10 = (5000 &&& 0x3FF) ∧
    getBits (Pdo.new_fixed 5000 1500).bits 9 0 = (1500 &&& 0x3FF) ∧
    getBits (Pdo.new_fixed 5000 1500).bits 31 30 = 0 ∧
    (FixedPdo.new 5000 1500).dual_role_power = false ∧
    (FixedPdo.new 5000 1500).dual_role_data = false ∧
    (FixedPdo.new 5000 1500).usb_communications_capable = false ∧
    (FixedPdo.new 5000 1500).higher_capability = false ∧
    (FixedPdo.new 5000 1500).unconstrained_power = false ∧
    (FixedPdo.new 5000 1500).fast_role_swap = FastSwapSupport.NotSupported :=
  new_fixed_spec 5000 1500 (by norm_num) (by norm_num)

/-- Frame property of the single-bit `bitfield!` setter: every bit other
than the designated one (below 32) is preserved on a `u32` word. -/
lemma setBit_frame (w k i : Nat) (b : Bool) (hw : w < 2 ^ 32) (hk : k < 32)
    (hik : i ≠ k) : (setBit w k b).testBit i = w.testBit i := by
  simp only [setBit, setBits, Nat.sub_self, Nat.testBit_or, Nat.testBit_and,
    Nat.testBit_xor, Nat.testBit_shiftLeft, Nat.testBit_two_pow_sub_one,
    ge_iff_le, pow_one, Nat.and_one_is_mod, ge_iff_le]
  by_cases hki : k ≤ i
  · have h1 : ¬i - k < 1 := by omega
    by_cases h32 : i < 32
    · simp [hki, h1, h32, Nat.testBit_mod_two_pow]
    · have hbf : w.testBit i = false := testBit_of_lt_32 hw (by omega)
      simp [hki, h1, h32, Nat.testBit_mod_two_pow, hbf]
  · by_cases h32 : i < 32
    · simp [hki, h32]
    · have hbf : w.testBit i = false := testBit_of_lt_32 hw (by omega)
      simp [hki, h32, hbf]

/-- C10: on a Fixed PDO each of the five field mutators changes at most
its designated bit (29 dual-role-power, 28 higher-capability, 27
unconstrained-power, 26 usb-communications-capable, 25 dual-role-data);
every other bit — tag bits 31:30, fast-role-swap, voltage, current
included — is unchanged, and on every variant the discriminant is
preserved by every mutator. -/
theorem mutators_single_bit_frame (w : Nat) (hw : w < 2 ^ 32) (b : Bool) (i : Nat) :
    (i ≠ 29 → (((Pdo.Fixed ⟨w⟩).dual_role_power b).bits).testBit i = w.testBit i) ∧
    (i ≠ 28 → (((Pdo.Fixed ⟨w⟩).higher_capability b).bits).testBit i = w.testBit i) ∧
    (i ≠ 27 → (((Pdo.Fixed ⟨w⟩).unconstrained_power b).bits).testBit i = w.testBit i) ∧
    (i ≠ 26 → (((Pdo.Fixed ⟨w⟩).usb_communications_capable b).bits).testBit i = w.testBit i) ∧
    (i ≠ 25 → (((Pdo.Fixed ⟨w⟩).dual_role_data b).bits).testBit i = w.testBit i) ∧
    (∀ p : Pdo, (p.dual_role_power b).tagIdx = p.tagIdx ∧
      (p.higher_capability b).tagIdx = p.tagIdx ∧
      (p.unconstrained_power b).tagIdx = p.tagIdx ∧
      (p.usb_communications_capable b).tagIdx = p.tagIdx ∧
      (p.dual_role_data b).tagIdx = p.tagIdx) := by
  refine ⟨fun h => setBit_frame w 29 i b hw (by norm_num) h,
    fun h => setBit_frame w 28 i b hw (by norm_num) h,
    fun h => setBit_frame w 27 i b hw (by norm_num) h,
    fun h => setBit_frame w 26 i b hw (by norm_num) h,
    fun h => setBit_frame w 25 i b hw (by norm_num) h, ?_⟩
  intro p
  cases p <;> exact ⟨rfl, rfl, rfl, rfl, rfl⟩

/-- Witness for C10 at the all-ones word, `b = true`, bit 0. -/
theorem mutators_single_bit_frame_witness :
    (0 ≠ 29 → (((Pdo.Fixed ⟨0xFFFFFFFF⟩).dual_role_power true).bits).testBit 0 =
      (0xFFFFFFFF : Nat).testBit 0) ∧
    (0 ≠ 28 → (((Pdo.Fixed ⟨0xFFFFFFFF⟩).higher_capability true).bits).testBit 0 =
      (0xFFFFFFFF : Nat).testBit 0) ∧
    (0 ≠ 27 → (((Pdo.Fixed ⟨0xFFFFFFFF⟩).unconstrained_power true).bits).testBit 0 =
      (0xFFFFFFFF : Nat).testBit 0) ∧
    (0 ≠ 26 → (((Pdo.Fixed ⟨0xFFFFFFFF⟩).usb_communications_capable true).bits).testBit 0 =
      (0xFFFFFFFF : Nat).testBit 0) ∧
    (0 ≠ 25 → (((Pdo.Fixed ⟨0xFFFFFFFF⟩).dual_role_data true).bits).testBit 0 =
      (0xFFFFFFFF : Nat).testBit 0) ∧
    (∀ p : Pdo, (p.dual_role_power true).tagIdx = p.tagIdx ∧
      (p.higher_capability true).tagIdx = p.tagIdx ∧
      (p.unconstrained_power true).tagIdx = p.tagIdx ∧
      (p.usb_communications_capable true).tagIdx = p.tagIdx ∧
      (p.dual_role_data true).tagIdx = p.tagIdx) :=
  mutators_single_bit_frame 0xFFFFFFFF (by norm_num) true 0

/-! ### NVM programming protocol, from src/nvm.rs

The register map, the `NvmCtrl0`/`NvmCtrl1` bit encodings, the `Error`
wrapper and the I2C transport come from the crate root (lib.rs), which is
not part of the sources here; they are modelled symbolically from the
spec. The driver logic below them mirrors src/nvm.rs. -/

/-- A bus byte. -/
abbrev Byte := Nat

/-- Modelled from the spec: the register addresses the NVM controller
touches (lib.rs `Register` is not under src/); addresses are opaque
enumerated constants. -/
inductive Register
  | NvmPassword
  | NvmCtrl0
  | NvmCtrl1
  | RWBuffer
deriving DecidableEq

/-- Modelled from the spec: an `NvmCtrl0` register value (lib.rs bit
encoding is not under src/) — a bitset over Power, Enable, Request plus a
sector-select field in the low bits of the byte. -/
structure NvmCtrl0Val where
  power : Bool
  enable : Bool
  request : Bool
  sector : Byte
deriving DecidableEq

/-- Modelled from the spec: the `NvmCtrl1Opcode` operation selector
(lib.rs is not under src/). -/
inductive NvmCtrl1Opcode
  | ReadSector
  | LoadPlr
  | LoadSer
  | EraseSectors
  | WriteSector
deriving DecidableEq

/-- Modelled from the spec: an `NvmCtrl1` register value (lib.rs bit
encoding is not under src/) — either the cleared register, a bare opcode,
or the LoadSer opcode OR'd with the five per-sector erase flags. -/
inductive NvmCtrl1Val
  | clear
  | opcode (op : NvmCtrl1Opcode)
  | loadSerErase (s0 s1 s2 s3 s4 : Bool)
deriving DecidableEq

/-- A symbolic value written to a register. -/
inductive RegVal
  | byte (b : Byte)
  | ctrl0 (v : NvmCtrl0Val)
  | ctrl1 (v : NvmCtrl1Val)
deriving DecidableEq

/-- One bus transaction, as observed on the wire: a register write, a
register read, a raw I2C write of a register address plus payload, or a
raw I2C read of `len` bytes. -/
inductive Txn
  | writeReg (r : Register) (v : RegVal)
  | readReg (r : Register)
  | i2cWrite (r : Register) (payload : List Byte)
  | i2cRead (len : Nat)
deriving DecidableEq

/-- Modelled from the spec: the transport (the `I2c` impl behind
`STUSB4500`, not under src/), as an oracle answering the `n`-th bus
transaction of a call: `wr n` is the outcome of a write (`none` =
success), `rdCtrl0 n` the outcome of reading `NvmCtrl0`, `rdBuf n` the
outcome of the 8-byte buffer read. -/
structure Transport (E : Type) where
  wr : Nat → Option E
  rdCtrl0 : Nat → Except E NvmCtrl0Val
  rdBuf : Nat → Except E (List Byte)

/-- Modelled from the spec: the crate's `Error<E>` type wraps a
transport-layer failure (single error taxonomy). -/
inductive Error (E : Type)
  | I2CError (e : E)
deriving DecidableEq

/-- Execution state of one driver call: how many bus transactions have
been attempted, and the trace of those transactions in order. -/
structure MState where
  count : Nat
  trace : List Txn
deriving DecidableEq

/-- The driver computation monad: given the state, produce `none` when the
busy-poll fuel ran out (modelling divergence of the unbounded loop), or
the `Result` of the call, together with the new state. -/
def M (E α : Type) := MState → Option (Except (Error E) α) × MState

/-- Monad unit. -/
def M.pure {E α : Type} (a : α) : M E α := fun s => (some (.ok a), s)

/-- Monad bind: `?`-propagation of errors, and propagation of the
out-of-fuel marker. -/
def M.bind {E α β : Type} (m : M E α) (f : α → M E β) : M E β := fun s =>
  match m s with
  | (some (.ok a), s') => f a s'
  | (some (.error e), s') => (some (.error e), s')
  | (none, s') => (none, s')

/-- `inner.write(reg, val)`: one register-write transaction, consulting
the transport. -/
def writeRegM {E : Type} (t : Transport E) (r : Register) (v : RegVal) : M E Unit :=
  fun s =>
    let s' : MState := ⟨s.count + 1, s.trace ++ [Txn.writeReg r v]⟩
    match t.wr s.count with
    | none => (some (.ok ()), s')
    | some e => (some (.error (.I2CError e)), s')

/-- `inner.read(Register::NvmCtrl0)`: one register-read transaction. -/
def readCtrl0M {E : Type} (t : Transport E) : M E NvmCtrl0Val :=
  fun s =>
    let s' : MState := ⟨s.count + 1, s.trace ++ [Txn.readReg Register.NvmCtrl0]⟩
    match t.rdCtrl0 s.count with
    | .ok v => (some (.ok v), s')
    | .error e => (some (.error (.I2CError e)), s')

/-- `i2c.write(address, addr_byte ++ payload)`: one raw-write transaction. -/
def i2cWriteM {E : Type} (t : Transport E) (r : Register) (payload : List Byte) : M E Unit :=
  fun s =>
    let s' : MState := ⟨s.count + 1, s.trace ++ [Txn.i2cWrite r payload]⟩
    match t.wr s.count with
    | none => (some (.ok ()), s')
    | some e => (some (.error (.I2CError e)), s')

/-- `i2c.read(address, buf)` for the 8-byte sector buffer: one raw-read
transaction. -/
def i2cReadM {E : Type} (t : Transport E) : M E (List Byte) :=
  fun s =>
    let s' : MState := ⟨s.count + 1, s.trace ++ [Txn.i2cRead 8]⟩
    match t.rdBuf s.count with
    | .ok d => (some (.ok d), s')
    | .error e => (some (.error (.I2CError e)), s')

/-- The `while ... contains(Request) {}` busy-poll of
`issue_request_with_sector`: read `NvmCtrl0`, loop while the Request bit
is set. `fuel` bounds how many reads we model; the source loop has no
bound, so running out of fuel returns the divergence marker `none`. -/
def pollRequestClear {E : Type} (t : Transport E) : Nat → M E Unit
  | 0 => fun s => (none, s)
  | fuel + 1 =>
    M.bind (readCtrl0M t) fun v =>
      if v.request then pollRequestClear t fuel else M.pure ()

/-- `STUSB4500Nvm::issue_request_with_sector` from src/nvm.rs: write
`sector | (Power | Enable | Request)` to `NvmCtrl0`, then busy-poll until
the Request bit reads back clear. -/
def issue_request_with_sector {E : Type} (t : Transport E) (fuel : Nat) (sector : Byte) :
    M E Unit :=
  M.bind (writeRegM t .NvmCtrl0 (.ctrl0 ⟨true, true, true, sector⟩)) fun _ =>
    pollRequestClear t fuel

/-- `STUSB4500Nvm::issue_request` from src/nvm.rs. -/
def issue_request {E : Type} (t : Transport E) (fuel : Nat) : M E Unit :=
  issue_request_with_sector t fuel 0

/-- `STUSB4500Nvm::DEFAULT_PASSWORD` from src/nvm.rs. -/
def DEFAULT_PASSWORD : Byte := 0x47

/-- `STUSB4500Nvm::unlock` from src/nvm.rs: write the password register =
0x47, write `NvmCtrl0` = 0x00, write `NvmCtrl0` = Power | Enable. -/
def unlock {E : Type} (t : Transport E) : M E Unit :=
  M.bind (writeRegM t .NvmPassword (.byte DEFAULT_PASSWORD)) fun _ =>
    M.bind (writeRegM t .NvmCtrl0 (.ctrl0 ⟨false, false, false, 0⟩)) fun _ =>
      writeRegM t .NvmCtrl0 (.ctrl0 ⟨true, true, false, 0⟩)

/-- `STUSB4500Nvm::lock` from src/nvm.rs: write `NvmCtrl0` = Enable only,
write `NvmCtrl1` = 0x00, write the password register = 0x00. -/
def lock {E : Type} (t : Transport E) : M E Unit :=
  M.bind (writeRegM t .NvmCtrl0 (.ctrl0 ⟨false, true, false, 0⟩)) fun _ =>
    M.bind (writeRegM t .NvmCtrl1 (.ctrl1 .clear)) fun _ =>
      writeRegM t .NvmPassword (.byte 0x00)

/-- `STUSB4500Nvm::read_sector` from src/nvm.rs: write the ReadSector
opcode to `NvmCtrl1`, issue a request with the sector index, write the
`RWBuffer` address, read back 8 bytes. -/
def read_sector {E : Type} (t : Transport E) (fuel : Nat) (sector : Byte) :
    M E (List Byte) :=
  M.bind (writeRegM t .NvmCtrl1 (.ctrl1 (.opcode .ReadSector))) fun _ =>
    M.bind (issue_request_with_sector t fuel sector) fun _ =>
      M.bind (i2cWriteM t .RWBuffer []) fun _ =>
        i2cReadM t

/-- The `for (i, sector) in buf.iter_mut().enumerate()` loop of
`read_sectors`. -/
def readSectorsAux {E : Type} (t : Transport E) (fuel : Nat) :
    List Byte → M E (List (List Byte))
  | [] => M.pure []
  | i :: rest =>
    M.bind (read_sector t fuel i) fun sec =>
      M.bind (readSectorsAux t fuel rest) fun rest' =>
        M.pure (sec :: rest')

/-- `STUSB4500Nvm::read_sectors` from src/nvm.rs: read sectors 0..5 in
ascending order into the 5×8 image. -/
def read_sectors {E : Type} (t : Transport E) (fuel : Nat) : M E (List (List Byte)) :=
  readSectorsAux t fuel [0, 1, 2, 3, 4]

/-- `STUSB4500Nvm::write_sector` from src/nvm.rs: raw-write the 8 data
bytes to `RWBuffer`, write the LoadPlr opcode, issue a request (sector 0),
write the WriteSector opcode, issue a request with the sector index. -/
def write_sector {E : Type} (t : Transport E) (fuel : Nat) (sector : Byte)
    (data : List Byte) : M E Unit :=
  M.bind (i2cWriteM t .RWBuffer data) fun _ =>
    M.bind (writeRegM t .NvmCtrl1 (.ctrl1 (.opcode .LoadPlr))) fun _ =>
      M.bind (issue_request t fuel) fun _ =>
        M.bind (writeRegM t .NvmCtrl1 (.ctrl1 (.opcode .WriteSector))) fun _ =>
          issue_request_with_sector t fuel sector

/-- `STUSB4500Nvm::erase_sectors` from src/nvm.rs: write the LoadSer
opcode OR'd with all five erase-sector flags, issue a request (sector 0),
write the EraseSectors opcode, issue a request (sector 0). -/
def erase_sectors {E : Type} (t : Transport E) (fuel : Nat) : M E Unit :=
  M.bind (writeRegM t .NvmCtrl1 (.ctrl1 (.loadSerErase true true true true true))) fun _ =>
    M.bind (issue_request t fuel) fun _ =>
      M.bind (writeRegM t .NvmCtrl1 (.ctrl1 (.opcode .EraseSectors))) fun _ =>
        issue_request t fuel

/-- The `for (i, sector) in sectors.iter().enumerate()` loop of
`write_sectors`. -/
def writeSectorsAux {E : Type} (t : Transport E) (fuel : Nat) :
    List (Nat × List Byte) → M E Unit
  | [] => M.pure ()
  | (i, d) :: rest =>
    M.bind (write_sector t fuel i d) fun _ => writeSectorsAux t fuel rest

/-- `STUSB4500Nvm::write_sectors` from src/nvm.rs: erase all sectors, then
write each sector in ascending index order. -/
def write_sectors {E : Type} (t : Transport E) (fuel : Nat)
    (sectors : List (List Byte)) : M E Unit :=
  M.bind (erase_sectors t fuel) fun _ => writeSectorsAux t fuel sectors.enum

/-- A transport on which every transaction succeeds and every `NvmCtrl0`
read comes back with the Request bit clear; buffer reads return
`data n` at transaction index `n`. -/
def transportOk (E : Type) (data : Nat → List Byte) : Transport E where
  wr := fun _ => none
  rdCtrl0 := fun _ => .ok ⟨true, true, false, 0⟩
  rdBuf := fun n => .ok (data n)

/-- A transport on which every write succeeds but every `NvmCtrl0` read
comes back with the Request bit still set. -/
def transportBusy (E : Type) : Transport E where
  wr := fun _ => none
  rdCtrl0 := fun _ => .ok ⟨true, true, true, 0⟩
  rdBuf := fun _ => .ok []

/-- The three register writes of `unlock`, in order. -/
def unlockTrace : List Txn :=
  [.writeReg .NvmPassword (.byte DEFAULT_PASSWORD),
   .writeReg .NvmCtrl0 (.ctrl0 ⟨false, false, false, 0⟩),
   .writeReg .NvmCtrl0 (.ctrl0 ⟨true, true, false, 0⟩)]

/-- The three register writes of `lock`, in order. -/
def lockTrace : List Txn :=
  [.writeReg .NvmCtrl0 (.ctrl0 ⟨false, true, false, 0⟩),
   .writeReg .NvmCtrl1 (.ctrl1 .clear),
   .writeReg .NvmPassword (.byte 0x00)]

/-- The bus transactions of `erase_sectors` when every request completes
after one poll read. -/
def eraseTrace : List Txn :=
  [.writeReg .NvmCtrl1 (.ctrl1 (.loadSerErase true true true true true)),
   .writeReg .NvmCtrl0 (.ctrl0 ⟨true, true, true, 0⟩),
   .readReg .NvmCtrl0,
   .writeReg .NvmCtrl1 (.ctrl1 (.opcode .EraseSectors)),
   .writeReg .NvmCtrl0 (.ctrl0 ⟨true, true, true, 0⟩),
   .readReg .NvmCtrl0]

/-- The bus transactions of `write_sector i d` when every request
completes after one poll read. -/
def writeSectorTrace (i : Byte) (d : List Byte) : List Txn :=
  [.i2cWrite .RWBuffer d,
   .writeReg .NvmCtrl1 (.ctrl1 (.opcode .LoadPlr)),
   .writeReg .NvmCtrl0 (.ctrl0 ⟨true, true, true, 0⟩),
   .readReg .NvmCtrl0,
   .writeReg .NvmCtrl1 (.ctrl1 (.opcode .WriteSector)),
   .writeReg .NvmCtrl0 (.ctrl0 ⟨true, true, true, i⟩),
   .readReg .NvmCtrl0]

/-- The bus transactions of `read_sector i` when every request completes
after one poll read. -/
def readSectorTrace (i : Byte) : List Txn :=
  [.writeReg .NvmCtrl1 (.ctrl1 (.opcode .ReadSector)),
   .writeReg .NvmCtrl0 (.ctrl0 ⟨true, true, true, i⟩),
   .readReg .NvmCtrl0,
   .i2cWrite .RWBuffer [],
   .i2cRead 8]

/-- C3: `unlock` performs exactly the three writes password = 0x47,
`NvmCtrl0` = 0x00, `NvmCtrl0` = Power|Enable in that order and succeeds;
if the transport fails the k-th write, that wrapped error is returned at
once, with no further transactions and no retry. -/
theorem unlock_spec (E : Type) (t : Transport E) :
    ((∀ j, j < 3 → t.wr j = none) →
      unlock t ⟨0, []⟩ = (some (.ok ()), ⟨3, unlockTrace⟩)) ∧
    (∀ k e, k < 3 → (∀ j, j < k → t.wr j = none) → t.wr k = some e →
      unlock t ⟨0, []⟩ =
        (some (.error (.I2CError e)), ⟨k + 1, unlockTrace.take (k + 1)⟩)) := by
  constructor
  · intro h
    simp [unlock, writeRegM, M.bind, h 0 (by norm_num), h 1 (by norm_num),
      h 2 (by norm_num), unlockTrace]
  · intro k e hk hpre hfail
    interval_cases k
    · simp [unlock, writeRegM, M.bind, hfail, unlockTrace]
    · simp [unlock, writeRegM, M.bind, hpre 0 (by norm_num), hfail, unlockTrace]
    · simp [unlock, writeRegM, M.bind, hpre 0 (by norm_num), hpre 1 (by norm_num),
        hfail, unlockTrace]

/-- Witness for C3: on an all-ok transport, `unlock` succeeds with exactly
the three writes. -/
theorem unlock_spec_witness :
    unlock (transportOk Nat fun _ => []) ⟨0, []⟩ = (some (.ok ()), ⟨3, unlockTrace⟩) :=
  (unlock_spec Nat (transportOk Nat fun _ => [])).1 (fun _ _ => rfl)

/-- C4: `lock` performs exactly the three writes `NvmCtrl0` = Enable only,
`NvmCtrl1` = 0x00, password = 0x00 in that order and succeeds; a failing
write propagates immediately. -/
theorem lock_spec (E : Type) (t : Transport E) :
    ((∀ j, j < 3 → t.wr j = none) →
      lock t ⟨0, []⟩ = (some (.ok ()), ⟨3, lockTrace⟩)) ∧
    (∀ k e, k < 3 → (∀ j, j < k → t.wr j = none) → t.wr k = some e →
      lock t ⟨0, []⟩ =
        (some (.error (.I2CError e)), ⟨k + 1, lockTrace.take (k + 1)⟩)) := by
  constructor
  · intro h
    simp [lock, writeRegM, M.bind, h 0 (by norm_num), h 1 (by norm_num),
      h 2 (by norm_num), lockTrace]
  · intro k e hk hpre hfail
    interval_cases k
    · simp [lock, writeRegM, M.bind, hfail, lockTrace]
    · simp [lock, writeRegM, M.bind, hpre 0 (by norm_num), hfail, lockTrace]
    · simp [lock, writeRegM, M.bind, hpre 0 (by norm_num), hpre 1 (by norm_num),
        hfail, lockTrace]

/-- Witness for C4 on an all-ok transport. -/
theorem lock_spec_witness :
    lock (transportOk Nat fun _ => []) ⟨0, []⟩ = (some (.ok ()), ⟨3, lockTrace⟩) :=
  (lock_spec Nat (transportOk Nat fun _ => [])).1 (fun _ _ => rfl)

/-- C2: for every 5×8 image, `write_sectors` performs the full erase
sequence first (LoadSer with all five erase flags, request with sector 0,
EraseSectors opcode, request with sector 0), then for i = 0..4 in
ascending order the write sequence for sector i (data bytes to RWBuffer,
LoadPlr, request with sector 0, WriteSector, request with sector i). -/
theorem write_sectors_spec (E : Type) (data : Nat → List Byte)
    (s0 s1 s2 s3 s4 : List Byte) :
    write_sectors (transportOk E data) 1 [s0, s1, s2, s3, s4] ⟨0, []⟩ =
      (some (.ok ()),
       ⟨41, eraseTrace ++ writeSectorTrace 0 s0 ++ writeSectorTrace 1 s1 ++
          writeSectorTrace 2 s2 ++ writeSectorTrace 3 s3 ++ writeSectorTrace 4 s4⟩) := by
  simp [write_sectors, erase_sectors, write_sector, issue_request,
    issue_request_with_sector, pollRequestClear, writeRegM, i2cWriteM, readCtrl0M,
    M.bind, M.pure, transportOk, writeSectorsAux, List.enum, List.enumFrom,
    eraseTrace, writeSectorTrace]

/-- C5: `read_sectors` reads sectors 0..4 in ascending order — each by
ReadSector opcode, request with sector i, RWBuffer address write, 8-byte
read — and assembles the five buffer reads into the image in that order. -/
theorem read_sectors_spec (E : Type) (data : Nat → List Byte) :
    read_sectors (transportOk E data) 1 ⟨0, []⟩ =
      (some (.ok [data 4, data 9, data 14, data 19, data 24]),
       ⟨25, readSectorTrace 0 ++ readSectorTrace 1 ++ readSectorTrace 2 ++
          readSectorTrace 3 ++ readSectorTrace 4⟩) := by
  simp [read_sectors, readSectorsAux, read_sector, issue_request_with_sector,
    pollRequestClear, writeRegM, readCtrl0M, i2cWriteM, i2cReadM, M.bind, M.pure,
    transportOk, readSectorTrace]

/-- Against a transport whose `NvmCtrl0` reads always have the Request bit
set, the busy-poll consumes all its fuel and diverges. -/
lemma poll_busy_diverges (E : Type) (fuel : Nat) (s : MState) :
    pollRequestClear (transportBusy E) fuel s =
      (none, ⟨s.count + fuel, s.trace ++ List.replicate fuel (Txn.readReg .NvmCtrl0)⟩) := by
  induction fuel generalizing s with
  | zero => simp [pollRequestClear]
  | succ n ih =>
    have h1 : readCtrl0M (transportBusy E) s =
        (some (.ok ⟨true, true, true, 0⟩),
         ⟨s.count + 1, s.trace ++ [Txn.readReg .NvmCtrl0]⟩) := by
      simp [readCtrl0M, transportBusy]
    simp only [pollRequestClear, M.bind, h1, if_true]
    rw [ih]
    simp [List.replicate_succ, List.append_assoc, Nat.add_assoc]
    omega

/-- C6: `issue_request_with_sector` first writes sector | Power|Enable|
Request to `NvmCtrl0` and then only re-reads `NvmCtrl0`; against a
transport that never clears the Request bit it exceeds every fuel bound
(no timeout or retry limit exists), while a read with the bit clear makes
it return Ok at once. -/
theorem issue_request_no_timeout (E : Type) (sector : Byte) (fuel : Nat) (s : MState) :
    issue_request_with_sector (transportBusy E) fuel sector s =
      (none, ⟨s.count + 1 + fuel,
        s.trace ++ Txn.writeReg .NvmCtrl0 (.ctrl0 ⟨true, true, true, sector⟩) ::
          List.replicate fuel (Txn.readReg .NvmCtrl0)⟩) ∧
    (∀ data : Nat → List Byte, 1 ≤ fuel →
      issue_request_with_sector (transportOk E data) fuel sector ⟨0, []⟩ =
        (some (.ok ()),
         ⟨2, [Txn.writeReg .NvmCtrl0 (.ctrl0 ⟨true, true, true, sector⟩),
           Txn.readReg .NvmCtrl0]⟩)) := by
  constructor
  · have h1 : writeRegM (transportBusy E) .NvmCtrl0 (.ctrl0 ⟨true, true, true, sector⟩) s =
        (some (.ok ()),
         ⟨s.count + 1,
          s.trace ++ [Txn.writeReg .NvmCtrl0 (.ctrl0 ⟨true, true, true, sector⟩)]⟩) := by
      simp [writeRegM, transportBusy]
    simp only [issue_request_with_sector, M.bind, h1, poll_busy_diverges]
    simp [List.append_assoc]
  · intro data hfuel
    match fuel, hfuel with
    | n + 1, _ =>
      simp [issue_request_with_sector, writeRegM, M.bind, M.pure, transportOk,
        pollRequestClear, readCtrl0M]

/-- Witness for C6 at sector 3, fuel 5, empty start state. -/
theorem issue_request_no_timeout_witness :
    issue_request_with_sector (transportBusy Nat) 5 3 ⟨0, []⟩ =
      (none, ⟨0 + 1 + 5,
        [] ++ Txn.writeReg .NvmCtrl0 (.ctrl0 ⟨true, true, true, 3⟩) ::
          List.replicate 5 (Txn.readReg .NvmCtrl0)⟩) ∧
    issue_request_with_sector (transportOk Nat fun _ => []) 5 3 ⟨0, []⟩ =
      (some (.ok ()),
       ⟨2, [Txn.writeReg .NvmCtrl0 (.ctrl0 ⟨true, true, true, 3⟩),
         Txn.readReg .NvmCtrl0]⟩) :=
  ⟨(issue_request_no_timeout Nat 3 5 ⟨0, []⟩).1,
   (issue_request_no_timeout Nat 3 5 ⟨0, []⟩).2 (fun _ => []) (by norm_num)⟩

/-! ### Error propagation (C9) -/

/-- The oracle answer consulted by transaction `tx` at index `n` is a
success. -/
def txnOk {E : Type} (t : Transport E) : Txn → Nat → Prop
  | .writeReg _ _, n => t.wr n = none
  | .readReg _, n => ∃ v, t.rdCtrl0 n = .ok v
  | .i2cWrite _ _, n => t.wr n = none
  | .i2cRead _, n => ∃ d, t.rdBuf n = .ok d

/-- The oracle answer consulted by transaction `tx` at index `n` is the
failure `e`. -/
def txnFails {E : Type} (t : Transport E) (e : E) : Txn → Nat → Prop
  | .writeReg _ _, n => t.wr n = some e
  | .readReg _, n => t.rdCtrl0 n = .error e
  | .i2cWrite _ _, n => t.wr n = some e
  | .i2cRead _, n => t.rdBuf n = .error e

/-- Error discipline of a driver computation against transport `t`: the
call appends exactly the transactions it attempts and counts each once;
it returns a wrapped transport error only when the last attempted
transaction is the failing one and every earlier attempted transaction
succeeded (so nothing is performed after the first failure — no retry, no
rollback); and it returns success (or exhausts poll fuel) only when every
attempted transaction succeeded. -/
def Propagates {E α : Type} (t : Transport E) (m : M E α) : Prop :=
  ∀ s : MState, ∃ l : List Txn,
    (m s).2.trace = s.trace ++ l ∧
    (m s).2.count = s.count + l.length ∧
    (∀ e, (m s).1 = some (.error (Error.I2CError e)) →
      ∃ l' tx, l = l' ++ [tx] ∧ txnFails t e tx (s.count + l'.length) ∧
        ∀ j (hj : j < l'.length), txnOk t (l'.get ⟨j, hj⟩) (s.count + j)) ∧
    (((m s).1 = none ∨ ∃ a, (m s).1 = some (.ok a)) →
      ∀ j (hj : j < l.length), txnOk t (l.get ⟨j, hj⟩) (s.count + j))

lemma propagates_pure {E α : Type} (t : Transport E) (a : α) :
    Propagates t (M.pure a) := by
  intro s
  refine ⟨[], by simp [M.pure], by simp [M.pure], ?_, ?_⟩
  · intro e heq
    simp [M.pure] at heq
  · intro _ j hj
    exact absurd hj (by simp)

lemma Propagates.bindP {E α β : Type} {t : Transport E} {m : M E α} {f : α → M E β}
    (hm : Propagates t m) (hf : ∀ a, Propagates t (f a)) :
    Propagates t (M.bind m f) := by
  intro s
  obtain ⟨l₁, htr₁, hct₁, herr₁, hok₁⟩ := hm s
  rcases hms : m s with ⟨r, s'⟩
  rw [hms] at htr₁ hct₁ herr₁ hok₁
  dsimp only at htr₁ hct₁ herr₁ hok₁
  rcases r with _ | r
  · refine ⟨l₁, by simp [M.bind, hms, htr₁], by simp [M.bind, hms, hct₁], ?_, ?_⟩
    · intro e heq
      simp [M.bind, hms] at heq
    · intro _ j hj
      exact hok₁ (Or.inl rfl) j hj
  · rcases r with e | a
    · rcases e with ⟨e⟩
      refine ⟨l₁, by simp [M.bind, hms, htr₁], by simp [M.bind, hms, hct₁], ?_, ?_⟩
      · intro e' heq
        simp only [M.bind, hms] at heq
        cases heq
        exact herr₁ e rfl
      · intro hcontra
        rcases hcontra with h | ⟨a, h⟩ <;> simp [M.bind, hms] at h
    · obtain ⟨l₂, htr₂, hct₂, herr₂, hok₂⟩ := hf a s'
      have hbind : M.bind m f s = f a s' := by
        simp [M.bind, hms]
      have hok₁' := hok₁ (Or.inr ⟨a, rfl⟩)
      refine ⟨l₁ ++ l₂, ?_, ?_, ?_, ?_⟩
      · rw [hbind, htr₂, htr₁, List.append_assoc]
      · rw [hbind, hct₂, hct₁, List.length_append]
        omega
      · intro e heq
        rw [hbind] at heq
        obtain ⟨l₂', tx, hsplit, hfail, hpre⟩ := herr₂ e heq
        refine ⟨l₁ ++ l₂', tx, by rw [hsplit, List.append_assoc], ?_, ?_⟩
        · have : s.count + (l₁ ++ l₂').length = s'.count + l₂'.length := by
            rw [List.length_append, hct₁]
            omega
          rw [this]
          exact hfail
        · intro j hj
          by_cases hjl : j < l₁.length
          · rw [List.get_append j hjl]
            exact hok₁' j hjl
          · have hj₂ : j - l₁.length < l₂'.length := by
              rw [List.length_append] at hj
              omega
            rw [List.get_append_right l₁ l₂' (by omega)]
            have harith : s.count + j = s'.count + (j - l₁.length) := by
              rw [hct₁]
              omega
            rw [harith]
            exact hpre (j - l₁.length) hj₂
      · intro hres j hj
        rw [hbind] at hres
        have hok₂' := hok₂ hres
        by_cases hjl : j < l₁.length
        · rw [List.get_append j hjl]
          exact hok₁' j hjl
        · have hj₂ : j - l₁.length < l₂.length := by
            rw [List.length_append] at hj
            omega
          rw [List.get_append_right l₁ l₂ (by omega)]
          have harith : s.count + j = s'.count + (j - l₁.length) := by
            rw [hct₁]
            omega
          rw [harith]
          exact hok₂' (j - l₁.length) hj₂

lemma propagates_writeReg {E : Type} (t : Transport E) (r : Register) (v : RegVal) :
    Propagates t (writeRegM t r v) := by
  intro s
  refine ⟨[Txn.writeReg r v], ?_, ?_, ?_, ?_⟩
  · rcases hw : t.wr s.count with _ | e <;> simp [writeRegM, hw]
  · rcases hw : t.wr s.count with _ | e <;> simp [writeRegM, hw]
  · intro e heq
    rcases hw : t.wr s.count with _ | e'
    · simp [writeRegM, hw] at heq
    · simp only [writeRegM, hw] at heq
      cases heq
      exact ⟨[], Txn.writeReg r v, rfl, by simpa [txnFails] using hw,
        fun j hj => absurd hj (by simp)⟩
  · intro hres j hj
    have hj0 : j = 0 := by
      simp at hj
      omega
    subst hj0
    rcases hw : t.wr s.count with _ | e'
    · simpa [txnOk] using hw
    · rcases hres with h | ⟨a, h⟩ <;> simp [writeRegM, hw] at h

lemma propagates_i2cWrite {E : Type} (t : Transport E) (r : Register) (d : List Byte) :
    Propagates t (i2cWriteM t r d) := by
  intro s
  refine ⟨[Txn.i2cWrite r d], ?_, ?_, ?_, ?_⟩
  · rcases hw : t.wr s.count with _ | e <;> simp [i2cWriteM, hw]
  · rcases hw : t.wr s.count with _ | e <;> simp [i2cWriteM, hw]
  · intro e heq
    rcases hw : t.wr s.count with _ | e'
    · simp [i2cWriteM, hw] at heq
    · simp only [i2cWriteM, hw] at heq
      cases heq
      exact ⟨[], Txn.i2cWrite r d, rfl, by simpa [txnFails] using hw,
        fun j hj => absurd hj (by simp)⟩
  · intro hres j hj
    have hj0 : j = 0 := by
      simp at hj
      omega
    subst hj0
    rcases hw : t.wr s.count with _ | e'
    · simpa [txnOk] using hw
    · rcases hres with h | ⟨a, h⟩ <;> simp [i2cWriteM, hw] at h

lemma propagates_readCtrl0 {E : Type} (t : Transport E) :
    Propagates t (readCtrl0M t) := by
  intro s
  refine ⟨[Txn.readReg .NvmCtrl0], ?_, ?_, ?_, ?_⟩
  · rcases hw : t.rdCtrl0 s.count with e | v <;> simp [readCtrl0M, hw]
  · rcases hw : t.rdCtrl0 s.count with e | v <;> simp [readCtrl0M, hw]
  · intro e heq
    rcases hw : t.rdCtrl0 s.count with e' | v
    · simp only [readCtrl0M, hw] at heq
      cases heq
      exact ⟨[], Txn.readReg .NvmCtrl0, rfl, by simpa [txnFails] using hw,
        fun j hj => absurd hj (by simp)⟩
    · simp [readCtrl0M, hw] at heq
  · intro hres j hj
    have hj0 : j = 0 := by
      simp at hj
      omega
    subst hj0
    rcases hw : t.rdCtrl0 s.count with e' | v
    · rcases hres with h | ⟨a, h⟩ <;> simp [readCtrl0M, hw] at h
    · exact ⟨v, by simpa using hw⟩

lemma propagates_i2cRead {E : Type} (t : Transport E) :
    Propagates t (i2cReadM t) := by
  intro s
  refine ⟨[Txn.i2cRead 8], ?_, ?_, ?_, ?_⟩
  · rcases hw : t.rdBuf s.count with e | d <;> simp [i2cReadM, hw]
  · rcases hw : t.rdBuf s.count with e | d <;> simp [i2cReadM, hw]
  · intro e heq
    rcases hw : t.rdBuf s.count with e' | d
    · simp only [i2cReadM, hw] at heq
      cases heq
      exact ⟨[], Txn.i2cRead 8, rfl, by simpa [txnFails] using hw,
        fun j hj => absurd hj (by simp)⟩
    · simp [i2cReadM, hw] at heq
  · intro hres j hj
    have hj0 : j = 0 := by
      simp at hj
      omega
    subst hj0
    rcases hw : t.rdBuf s.count with e' | d
    · rcases hres with h | ⟨a, h⟩ <;> simp [i2cReadM, hw] at h
    · exact ⟨d, by simpa using hw⟩

lemma propagates_poll {E : Type} (t : Transport E) (fuel : Nat) :
    Propagates t (pollRequestClear t fuel) := by
  induction fuel with
  | zero =>
    intro s
    exact ⟨[], by simp [pollRequestClear], by simp [pollRequestClear],
      fun e heq => by simp [pollRequestClear] at heq,
      fun _ j hj => absurd hj (by simp)⟩
  | succ n ih =>
    exact Propagates.bindP (propagates_readCtrl0 t) fun v => by
      rcases hv : v.request
      · simpa [hv] using propagates_pure t ()
      · simpa [hv] using ih

lemma propagates_issue_request_with_sector {E : Type} (t : Transport E)
    (fuel : Nat) (sector : Byte) :
    Propagates t (issue_request_with_sector t fuel sector) :=
  Propagates.bindP (propagates_writeReg t _ _) fun _ => propagates_poll t fuel

lemma propagates_issue_request {E : Type} (t : Transport E) (fuel : Nat) :
    Propagates t (issue_request t fuel) :=
  propagates_issue_request_with_sector t fuel 0

lemma propagates_unlock {E : Type} (t : Transport E) : Propagates t (unlock t) :=
  Propagates.bindP (propagates_writeReg t _ _) fun _ =>
    Propagates.bindP (propagates_writeReg t _ _) fun _ =>
      propagates_writeReg t _ _

lemma propagates_lock {E : Type} (t : Transport E) : Propagates t (lock t) :=
  Propagates.bindP (propagates_writeReg t _ _) fun _ =>
    Propagates.bindP (propagates_writeReg t _ _) fun _ =>
      propagates_writeReg t _ _

lemma propagates_read_sector {E : Type} (t : Transport E) (fuel : Nat) (i : Byte) :
    Propagates t (read_sector t fuel i) :=
  Propagates.bindP (propagates_writeReg t _ _) fun _ =>
    Propagates.bindP (propagates_issue_request_with_sector t fuel i) fun _ =>
      Propagates.bindP (propagates_i2cWrite t _ _) fun _ =>
        propagates_i2cRead t

lemma propagates_readSectorsAux {E : Type} (t : Transport E) (fuel : Nat)
    (is : List Byte) : Propagates t (readSectorsAux t fuel is) := by
  induction is with
  | nil => exact propagates_pure t []
  | cons i rest ih =>
    exact Propagates.bindP (propagates_read_sector t fuel i) fun sec =>
      Propagates.bindP ih fun rest' => propagates_pure t (sec :: rest')

lemma propagates_write_sector {E : Type} (t : Transport E) (fuel : Nat)
    (i : Byte) (d : List Byte) : Propagates t (write_sector t fuel i d) :=
  Propagates.bindP (propagates_i2cWrite t _ _) fun _ =>
    Propagates.bindP (propagates_writeReg t _ _) fun _ =>
      Propagates.bindP (propagates_issue_request t fuel) fun _ =>
        Propagates.bindP (propagates_writeReg t _ _) fun _ =>
          propagates_issue_request_with_sector t fuel i

lemma propagates_erase_sectors {E : Type} (t : Transport E) (fuel : Nat) :
    Propagates t (erase_sectors t fuel) :=
  Propagates.bindP (propagates_writeReg t _ _) fun _ =>
    Propagates.bindP (propagates_issue_request t fuel) fun _ =>
      Propagates.bindP (propagates_writeReg t _ _) fun _ =>
        propagates_issue_request t fuel

lemma propagates_writeSectorsAux {E : Type} (t : Transport E) (fuel : Nat)
    (l : List (Nat × List Byte)) : Propagates t (writeSectorsAux t fuel l) := by
  induction l with
  | nil => exact propagates_pure t ()
  | cons p rest ih =>
    rcases p with ⟨i, d⟩
    exact Propagates.bindP (propagates_write_sector t fuel i d) fun _ => ih

/-- C9: every NVM operation (`unlock`, `lock`, `read_sectors`,
`write_sectors`, each for any poll fuel and any image) satisfies the
error-propagation discipline on every transport: the first failing bus
transaction is the last one attempted, its wrapped transport error is
returned immediately, every earlier transaction succeeded, and no retry,
rollback or re-lock transaction follows it. -/
theorem nvm_error_propagation (E : Type) (t : Transport E) (fuel : Nat)
    (img : List (List Byte)) :
    Propagates t (unlock t) ∧ Propagates t (lock t) ∧
    Propagates t (read_sectors t fuel) ∧
    Propagates t (write_sectors t fuel img) :=
  ⟨propagates_unlock t, propagates_lock t,
   propagates_readSectorsAux t fuel [0, 1, 2, 3, 4],
   Propagates.bindP (propagates_erase_sectors t fuel) fun _ =>
     propagates_writeSectorsAux t fuel img.enum⟩

/-- Witness for C9 at a concrete transport, fuel 1 and the empty image. -/
theorem nvm_error_propagation_witness :
    Propagates (transportOk Nat fun _ => []) (unlock (transportOk Nat fun _ => [])) ∧
    Propagates (transportOk Nat fun _ => []) (lock (transportOk Nat fun _ => [])) ∧
    Propagates (transportOk Nat fun _ => []) (read_sectors (transportOk Nat fun _ => []) 1) ∧
    Propagates (transportOk Nat fun _ => []) (write_sectors (transportOk Nat fun _ => []) 1 []) :=
  nvm_error_propagation Nat (transportOk Nat fun _ => []) 1 []

end Stusb4500
